import Mathlib

/-!
Shallow embedding of the conditional-logic and pagination engine of the
widget-react repository.

Sources embedded:
* `src/utils/conditionalLogic.ts` — the `ConditionalLogicUtil` class
  (condition evaluator, condition-set evaluator, visibility resolver,
  skip resolver) together with the TypeScript data types it declares.
* `src/components/FormWidget.tsx` and `src/components/SurveyWidget.tsx` —
  the `skippedQuestionIds` and `pages` memoized computations.  The two
  widgets' `skippedQuestionIds` computations are textually identical, so
  they are embedded once; the `pages` computations differ only in the
  zero-pages fallback and are embedded as `formPages` and `surveyPages`.

JavaScript runtime values are modelled by the inductive type `Value`
(`undefined` is modelled as `Option.none` at every use site, matching the
distinction JavaScript draws between a missing value and `null`).
JavaScript numbers are modelled as rationals: every numeric literal and
every arithmetic-free comparison appearing in the embedded code is exact
on rationals, and `NaN` is modelled as `Option.none` of the coercion.
-/

namespace WidgetReact

/-- A JavaScript runtime value, as far as the embedded code inspects one:
`null`, booleans, numbers, strings, arrays, and plain objects (of which the
code only ever inspects the list of own enumerable keys). `undefined` is
not a constructor: it is represented by `Option.none` wherever a value may
be absent. -/
inductive Value where
  | vNull
  | vBool (b : Bool)
  | vNum (n : ℚ)
  | vStr (s : String)
  | vArr (xs : List Value)
  | vObj (keys : List String)

/-- The `answers` / `responses` record: a JavaScript object used as a map
from question id to answer value.  Reading an absent key yields
`undefined`, i.e. `none`. -/
abbrev Answers := List (String × Value)

/-- `answers[questionId]` — property read on a record, `undefined` when the
key is absent. -/
def lookupAnswer (answers : Answers) (key : String) : Option Value :=
  (answers.find? (fun p => p.1 == key)).map (fun p => p.2)

/-- JavaScript `String.prototype.trim`: strip leading and trailing
whitespace.  Implemented on the character list so that it evaluates inside
the kernel; the exotic Unicode space characters JavaScript additionally
strips do not occur in this repository's data. -/
def jsTrim (s : String) : String :=
  ⟨((s.data.dropWhile Char.isWhitespace).reverse.dropWhile Char.isWhitespace).reverse⟩

/-- JavaScript `String.prototype.toLowerCase` (ASCII range, which is all the
embedded comparisons are case-folding). -/
def jsToLower (s : String) : String :=
  ⟨s.data.map Char.toLower⟩

/-- JavaScript `String.prototype.startsWith`. -/
def jsStartsWith (s v : String) : Bool :=
  v.data.isPrefixOf s.data

/-- JavaScript `String.prototype.endsWith`. -/
def jsEndsWith (s v : String) : Bool :=
  v.data.reverse.isPrefixOf s.data.reverse

/-- JavaScript `String.prototype.includes`: substring test. -/
def jsIncludes (s v : String) : Bool :=
  s.data.tails.any (fun t => v.data.isPrefixOf t)

/-- Accumulate a digit string into a natural number. -/
def digitsVal (cs : List Char) : ℕ :=
  cs.foldl (fun a c => 10 * a + (c.toNat - 48)) 0

/-- Parse an unsigned decimal numeric literal (`digits`, `digits.digits`,
`digits.`, `.digits`), the fragment of the ECMAScript `StringNumericLiteral`
grammar exercised by this repository's data.  Exponent, hexadecimal and
`Infinity` forms are not modelled; `none` is the modelled `NaN`. -/
def parseUnsigned (cs : List Char) : Option ℚ :=
  let intPart := cs.takeWhile Char.isDigit
  let rest := cs.dropWhile Char.isDigit
  match rest with
  | [] => if intPart.isEmpty then none else some (digitsVal intPart)
  | '.' :: frac =>
    if frac.all Char.isDigit then
      if intPart.isEmpty && frac.isEmpty then none
      else some ((digitsVal intPart : ℚ) + (digitsVal frac : ℚ) / (10 ^ frac.length))
    else none
  | _ => none

/-- ECMAScript `ToNumber` on a string: trim whitespace, the empty string is
`0`, otherwise parse a (possibly signed) decimal literal; anything else is
`NaN` (modelled as `none`). -/
def strToNum (s : String) : Option ℚ :=
  let t := jsTrim s
  if t.data = [] then some 0
  else
    match t.toList with
    | '-' :: rest => (parseUnsigned rest).map (fun q => -q)
    | '+' :: rest => parseUnsigned rest
    | cs => parseUnsigned cs

/-- ECMAScript `ToNumber` on a defined value.  Arrays coerce through their
string form: `[]` is `""` hence `0`, a one-element array coerces like its
element's string form, and an array of two or more elements contains a
comma and is `NaN`; booleans and objects stringify to non-numeric text. -/
def toNumberV : Value → Option ℚ
  | .vNull => some 0
  | .vBool b => some (if b then 1 else 0)
  | .vNum n => some n
  | .vStr s => strToNum s
  | .vObj _ => none
  | .vArr [] => some 0
  | .vArr [.vBool _] => none
  | .vArr [x] => toNumberV x
  | .vArr (_ :: _ :: _) => none

/-- `Number(x)` where `x` may be `undefined`: `Number(undefined)` is `NaN`. -/
def toNumber : Option Value → Option ℚ
  | none => none
  | some v => toNumberV v

/-- JavaScript strict equality `===` on the embedded value domain.  Arrays
and objects compare by reference in JavaScript; an answer and a rule value
originate from distinct allocations (user input versus form definition), so
a comparison involving an array or an object is `false` here. -/
def strictEq : Option Value → Option Value → Bool
  | none, none => true
  | some .vNull, some .vNull => true
  | some (.vBool a), some (.vBool b) => a == b
  | some (.vNum a), some (.vNum b) => decide (a = b)
  | some (.vStr a), some (.vStr b) => a == b
  | _, _ => false

/-! The private static operator implementations of `ConditionalLogicUtil`
(`src/utils/conditionalLogic.ts`), under the source's method names. -/

namespace ConditionalLogicUtil

/-- `equals(answer, value)`: a one-element array compares by its element,
any other array is never equal; otherwise strict equality. -/
def equals (answer value : Option Value) : Bool :=
  match answer with
  | some (.vArr [x]) => strictEq (some x) value
  | some (.vArr _) => false
  | _ => strictEq answer value

/-- `contains(answer, value)`: arrays by membership, strings by
case-insensitive substring, anything else (including `null`/`undefined`)
is `false`. -/
def contains (answer value : Option Value) : Bool :=
  match answer with
  | none => false
  | some .vNull => false
  | some (.vArr xs) => xs.any (fun x => strictEq (some x) value)
  | some (.vStr s) =>
    match value with
    | some (.vStr v) => jsIncludes (jsToLower s) (jsToLower v)
    | _ => false
  | some _ => false

/-- `greaterThan(answer, value)`: coerce both sides with `Number`; `NaN` on
either side yields `false`. -/
def greaterThan (answer value : Option Value) : Bool :=
  match toNumber answer, toNumber value with
  | some a, some b => decide (a > b)
  | _, _ => false

/-- `lessThan(answer, value)`. -/
def lessThan (answer value : Option Value) : Bool :=
  match toNumber answer, toNumber value with
  | some a, some b => decide (a < b)
  | _, _ => false

/-- `greaterThanOrEqual(answer, value)`. -/
def greaterThanOrEqual (answer value : Option Value) : Bool :=
  match toNumber answer, toNumber value with
  | some a, some b => decide (a ≥ b)
  | _, _ => false

/-- `lessThanOrEqual(answer, value)`. -/
def lessThanOrEqual (answer value : Option Value) : Bool :=
  match toNumber answer, toNumber value with
  | some a, some b => decide (a ≤ b)
  | _, _ => false

/-- `isEmpty(answer)`: `null`/`undefined`, a string blank after trimming, an
empty array, or an object with no own keys. -/
def isEmpty (answer : Option Value) : Bool :=
  match answer with
  | none => true
  | some .vNull => true
  | some (.vStr s) => (jsTrim s).data = []
  | some (.vArr xs) => xs.isEmpty
  | some (.vObj keys) => keys.isEmpty
  | some (.vNum _) => false
  | some (.vBool _) => false

/-- `startsWith(answer, value)`: both must be strings; case-insensitive. -/
def startsWith (answer value : Option Value) : Bool :=
  match answer, value with
  | some (.vStr s), some (.vStr v) => jsStartsWith (jsToLower s) (jsToLower v)
  | _, _ => false

/-- `endsWith(answer, value)`: both must be strings; case-insensitive. -/
def endsWith (answer value : Option Value) : Bool :=
  match answer, value with
  | some (.vStr s), some (.vStr v) => jsEndsWith (jsToLower s) (jsToLower v)
  | _, _ => false

/-- `inList(answer, value)`: `value` must be an array, else `false`; an
array answer intersects it, a scalar answer is a member of it. -/
def inList (answer value : Option Value) : Bool :=
  match value with
  | some (.vArr vs) =>
    match answer with
    | some (.vArr xs) => xs.any (fun x => vs.any (fun v => strictEq (some v) (some x)))
    | a => vs.any (fun v => strictEq (some v) a)
  | _ => false

end ConditionalLogicUtil

/-- `'AND' | 'OR'` — the `LogicCombinator` union type. -/
inductive LogicCombinator where
  | AND
  | OR
deriving DecidableEq

/-- The `LogicCondition` interface: `questionId?: string`,
`operator: LogicOperator | string`, `value?: unknown`. -/
structure LogicCondition where
  questionId : Option String
  operator : String
  value : Option Value

/-- The `VisibilityLogic` interface. -/
structure VisibilityLogic where
  enabled : Bool
  operator : LogicCombinator
  conditions : List LogicCondition

/-- The `SkipLogicRule` interface: `skipToQuestionId` is a question id or
the terminal marker string `"END"`. -/
structure SkipLogicRule where
  conditions : List LogicCondition
  operator : Option LogicCombinator
  skipToQuestionId : String

/-- The `SkipLogic` interface. -/
structure SkipLogic where
  enabled : Bool
  unconditionalTarget : Option String
  rules : Option (List SkipLogicRule)

/-- The `QuestionLogicRules` interface. -/
structure QuestionLogicRules where
  visibility : Option VisibilityLogic
  skip_to : Option SkipLogic

namespace ConditionalLogicUtil

/-- `evaluateCondition(condition, answers)`: a falsy (absent or empty)
`questionId` is `false`; otherwise dispatch on the operator string, with
unknown operators `false`. -/
def evaluateCondition (condition : LogicCondition) (answers : Answers) : Bool :=
  match condition.questionId with
  | none => false
  | some qid =>
    if qid = "" then false
    else
      let answer := lookupAnswer answers qid
      match condition.operator with
      | "equals" => equals answer condition.value
      | "not_equals" => !equals answer condition.value
      | "contains" => contains answer condition.value
      | "not_contains" => !contains answer condition.value
      | "greater_than" => greaterThan answer condition.value
      | "less_than" => lessThan answer condition.value
      | "greater_than_or_equal" => greaterThanOrEqual answer condition.value
      | "less_than_or_equal" => lessThanOrEqual answer condition.value
      | "is_empty" => isEmpty answer
      | "is_not_empty" => !isEmpty answer
      | "starts_with" => startsWith answer condition.value
      | "ends_with" => endsWith answer condition.value
      | "in_list" => inList answer condition.value
      | "not_in_list" => !inList answer condition.value
      | _ => false

/-- `evaluateConditions(conditions, operator, answers)`: a nullish or empty
condition list is `true`; `'AND'` requires every condition, the other
combinator (`'OR'`) requires some condition.  The `Option` on the list
models the `!conditions` guard against a nullish array. -/
def evaluateConditions (conditions : Option (List LogicCondition))
    (operator : LogicCombinator) (answers : Answers) : Bool :=
  match conditions with
  | none => true
  | some [] => true
  | some cs =>
    match operator with
    | .AND => cs.all (fun c => evaluateCondition c answers)
    | .OR => cs.any (fun c => evaluateCondition c answers)

/-- `evaluateVisibility(visibilityLogic, answers)`: absent or disabled
rules are visible. -/
def evaluateVisibility (visibilityLogic : Option VisibilityLogic)
    (answers : Answers) : Bool :=
  match visibilityLogic with
  | none => true
  | some vl =>
    if !vl.enabled then true
    else evaluateConditions (some vl.conditions) vl.operator answers

/-- The condition-set test of one `SkipLogicRule` inside the
`evaluateSkipLogic` loop; a falsy `rule.operator` defaults to `'AND'`. -/
def skipRuleMatches (rule : SkipLogicRule) (answers : Answers) : Bool :=
  evaluateConditions (some rule.conditions) (rule.operator.getD .AND) answers

/-- The `for (const rule of skipLogic.rules)` loop of `evaluateSkipLogic`:
return the first matching entry's `skipToQuestionId`. -/
def skipRulesLoop (answers : Answers) : List SkipLogicRule → Option String
  | [] => none
  | rule :: rest =>
    if skipRuleMatches rule answers then some rule.skipToQuestionId
    else skipRulesLoop answers rest

/-- `evaluateSkipLogic(skipLogic, answers)`: `null` when the logic is
absent, not enabled, or has a nullish or empty `rules` array; otherwise the
first-matching rule's target, or `null` when none matches. -/
def evaluateSkipLogic (skipLogic : Option SkipLogic) (answers : Answers) :
    Option String :=
  match skipLogic with
  | none => none
  | some sl =>
    if !sl.enabled then none
    else
      match sl.rules with
      | none => none
      | some [] => none
      | some rules => skipRulesLoop answers rules

end ConditionalLogicUtil

/-- A question record, restricted to the fields the embedded computations
read: `id?: string`, `display_order: number`, `question_type: string`
(`'page_break'` is the pagination separator), and
`logic_rules?: QuestionLogicRules`.  Display orders are integers in all of
this repository's data. -/
structure Question where
  id : Option String
  display_order : Int
  question_type : String
  logic_rules : Option QuestionLogicRules

/-- Stable insertion of a question in front of the first element with a
greater-or-equal display order. -/
def insertByOrder (q : Question) : List Question → List Question
  | [] => [q]
  | x :: xs =>
    if q.display_order ≤ x.display_order then q :: x :: xs
    else x :: insertByOrder q xs

/-- `[...questions].sort((a, b) => a.display_order - b.display_order)` —
`Array.prototype.sort` is stable, so the result is the unique ascending
reordering that keeps equal display orders in their original relative
order; a stable insertion sort computes exactly that list. -/
def sortQuestions : List Question → List Question
  | [] => []
  | q :: qs => insertByOrder q (sortQuestions qs)

/-- `ConditionalLogicUtil.filterVisibleQuestions(questions, answers)`. -/
def ConditionalLogicUtil.filterVisibleQuestions (questions : List Question)
    (answers : Answers) : List Question :=
  questions.filter (fun q =>
    ConditionalLogicUtil.evaluateVisibility (q.logic_rules.bind (fun lr => lr.visibility)) answers)

/-! The `skippedQuestionIds` and `pages` computations.  The code is
line-for-line identical in `FormWidget.tsx` (lines 384–473) and
`SurveyWidget.tsx` (lines 401–490) except for the zero-pages fallback of
`pages`, so the shared parts are embedded once. -/
namespace Widgets

open ConditionalLogicUtil

/-- `x !== undefined` on a possibly-absent value. -/
def isUndef : Option Value → Bool
  | none => true
  | some _ => false

/-- `x === null`. -/
def isNullV : Option Value → Bool
  | some .vNull => true
  | _ => false

/-- `x === ''` — strict equality with the empty string, true only for the
empty string itself. -/
def isEmptyStr : Option Value → Bool
  | some (.vStr s) => s == ""
  | _ => false

/-- The trigger guard of the skip-closure loop:
`question.id && responses[question.id] !== undefined &&
responses[question.id] !== null && responses[question.id] !== ''`
(a falsy — absent or empty — id fails the first conjunct). -/
def hasResponse (question : Question) (responses : Answers) : Bool :=
  match question.id with
  | none => false
  | some qid =>
    qid != "" && !isUndef (lookupAnswer responses qid)
      && !isNullV (lookupAnswer responses qid)
      && !isEmptyStr (lookupAnswer responses qid)

/-- The `skipTo` computed inside the loop body: a truthy
`unconditionalTarget` wins without any further check, otherwise the
conditional evaluation `ConditionalLogicUtil.evaluateSkipLogic`. -/
def skipTargetOf (question : Question) (responses : Answers) : Option String :=
  match question.logic_rules.bind (fun lr => lr.skip_to) with
  | none => none
  | some st =>
    match st.unconditionalTarget with
    | some t =>
      if t = "" then evaluateSkipLogic (some st) responses
      else some t
    | none => evaluateSkipLogic (some st) responses

/-- The ids collected by `if (sortedQuestions[j].id) skipped.add(...)`:
the truthy ids of a question list. -/
def truthyIds (qs : List Question) : List String :=
  qs.filterMap (fun q =>
    match q.id with
    | some s => if s = "" then none else some s
    | none => none)

/-- The `for (let i = 0; ...)` loop of `skippedQuestionIds`, with the
iteration count made explicit as structural fuel (the caller supplies
`sorted.length`, so the loop runs exactly while `i < sorted.length`).
The skipped set is modelled as the list of ids added, in insertion order;
`for j = i+1 .. targetIndex-1` over absolute indices of `sorted` is the
slice `(sorted.drop (i+1)).take (targetIndex - (i+1))`. -/
def skipLoopFuel (sorted : List Question) (responses : Answers) :
    ℕ → ℕ → List String → List String
  | 0, _, skipped => skipped
  | fuel + 1, i, skipped =>
    if h : i < sorted.length then
      let question := sorted.get ⟨i, h⟩
      if hasResponse question responses
          && (question.logic_rules.bind (fun lr => lr.skip_to)).isSome then
        match skipTargetOf question responses with
        | some t =>
          if t = "END" then
            skipped ++ truthyIds (sorted.drop (i + 1))
          else if t = "" then
            skipLoopFuel sorted responses fuel (i + 1) skipped
          else
            match List.findIdx? (fun x => x.id == some t) sorted with
            | some targetIndex =>
              if i < targetIndex then
                skipLoopFuel sorted responses fuel (i + 1)
                  (skipped ++ truthyIds ((sorted.drop (i + 1)).take (targetIndex - (i + 1))))
              else skipLoopFuel sorted responses fuel (i + 1) skipped
            | none => skipLoopFuel sorted responses fuel (i + 1) skipped
        | none => skipLoopFuel sorted responses fuel (i + 1) skipped
      else skipLoopFuel sorted responses fuel (i + 1) skipped
    else skipped

/-- The `skippedQuestionIds` memo of both widgets: sort by display order and
run the single left-to-right skip-closure pass. -/
def skippedQuestionIds (questions : List Question) (responses : Answers) :
    List String :=
  let sorted := sortQuestions questions
  skipLoopFuel sorted responses sorted.length 0 []

/-- The filtering prefix of the `pages` memo (identical in both widgets):
sort, keep visible questions, then drop questions whose
`q.id || ''` is in the skipped set. -/
def visibleAfterSkip (questions : List Question) (responses : Answers) :
    List Question :=
  let sorted := sortQuestions questions
  let visible := filterVisibleQuestions sorted responses
  visible.filter (fun q => !(skippedQuestionIds questions responses).contains (q.id.getD ""))

/-- `layout_config?.displayStyle || 'freeform'`. -/
def effectiveDisplayStyle (displayStyle : Option String) : String :=
  match displayStyle with
  | some s => if s = "" then "freeform" else s
  | none => "freeform"

/-- One step of the freeform `forEach` walk, with the mutable pair
`(pagesList, currentPageQuestions)` made explicit: a `page_break` flushes a
non-empty current page, any other question is appended to it. -/
def freeformStep (st : List (List Question) × List Question) (q : Question) :
    List (List Question) × List Question :=
  if q.question_type = "page_break" then
    if st.2.isEmpty then st else (st.1 ++ [st.2], [])
  else (st.1, st.2 ++ [q])

/-- The freeform walk over the filtered question list, including the final
`if (currentPageQuestions.length > 0) pagesList.push(...)` flush. -/
def freeformPagesList (visible : List Question) : List (List Question) :=
  let st := visible.foldl freeformStep ([], [])
  if st.2.isEmpty then st.1 else st.1 ++ [st.2]

/-- The `pages` memo of `FormWidget.tsx`: conversational mode gives one
page per non-`page_break` question; freeform mode splits at page breaks,
with `[[]]` (a single empty page) when the walk yields no pages. -/
def formPages (questions : List Question) (responses : Answers)
    (displayStyle : Option String) : List (List Question) :=
  let visible := visibleAfterSkip questions responses
  if effectiveDisplayStyle displayStyle = "conversational" then
    (visible.filter (fun q => q.question_type != "page_break")).map (fun q => [q])
  else
    let pagesList := freeformPagesList visible
    if pagesList.isEmpty then [[]] else pagesList

/-- The `pages` memo of `SurveyWidget.tsx`: identical to the form variant
except that the zero-pages fallback is a single page holding the visible
questions with page breaks removed. -/
def surveyPages (questions : List Question) (responses : Answers)
    (displayStyle : Option String) : List (List Question) :=
  let visible := visibleAfterSkip questions responses
  if effectiveDisplayStyle displayStyle = "conversational" then
    (visible.filter (fun q => q.question_type != "page_break")).map (fun q => [q])
  else
    let pagesList := freeformPagesList visible
    if pagesList.isEmpty then
      [visible.filter (fun q => q.question_type != "page_break")]
    else pagesList

/-- The ids one target-skip step adds: the questions strictly between the
trigger position `i` and the position of the target id (the first index
whose question carries that id), when that position is strictly later than
`i`; nothing when the target is missing or does not come later. -/
def targetAdds (sorted : List Question) (i : ℕ) (t : String) : List String :=
  match List.findIdx? (fun x => x.id == some t) sorted with
  | some targetIndex =>
    if i < targetIndex then
      truthyIds ((sorted.drop (i + 1)).take (targetIndex - (i + 1)))
    else []
  | none => []

/-- Recursive form of the freeform walk (proof device for relating the
`foldl` to its per-page behavior): split the list at page breaks, dropping
the breaks and never emitting an empty page; `cur` is the page being
accumulated. -/
def pbChunks (cur : List Question) : List Question → List (List Question)
  | [] => if cur.isEmpty then [] else [cur]
  | q :: rest =>
    if q.question_type = "page_break" then
      if cur.isEmpty then pbChunks [] rest else cur :: pbChunks [] rest
    else pbChunks (cur ++ [q]) rest

/-- The trigger predicate as the specification states it: the question's id
is present (a non-empty id string — JavaScript truthiness of
`question.id`), and the answer recorded under that id is neither
`undefined`, nor `null`, nor the empty string. -/
def answeredTrigger (question : Question) (responses : Answers) : Prop :=
  ∃ qid, question.id = some qid ∧ qid ≠ "" ∧
    lookupAnswer responses qid ≠ none ∧
    lookupAnswer responses qid ≠ some .vNull ∧
    lookupAnswer responses qid ≠ some (.vStr "")

end Widgets

/-! Concrete data used by the witness theorems. -/
namespace Examples

/-- A plain text question with id `q1` at display order 0. -/
def exQ1 : Question := ⟨some "q1", 0, "text", none⟩

/-- A plain text question with id `q2` at display order 1. -/
def exQ2 : Question := ⟨some "q2", 1, "text", none⟩

/-- A page break at display order 2. -/
def exPB : Question := ⟨some "pb", 2, "page_break", none⟩

/-- A plain text question with id `q3` at display order 3. -/
def exQ3 : Question := ⟨some "q3", 3, "text", none⟩

/-- A plain text question with id `q4` at display order 4. -/
def exQ4 : Question := ⟨some "q4", 4, "text", none⟩

/-- An answer set in which `q1` is answered. -/
def exAns : Answers := [("q1", .vStr "yes")]

/-- A disabled skip rule carrying an unconditional target `q3`. -/
def disabledUncondSkip : SkipLogic := ⟨false, some "q3", none⟩

/-- Question `q1` carrying `disabledUncondSkip`. -/
def exQ1Uncond : Question := ⟨some "q1", 0, "text", some ⟨none, some disabledUncondSkip⟩⟩

/-- Question `q1` with a skip rule resolving unconditionally to `END`. -/
def exQ1End : Question := ⟨some "q1", 0, "text", some ⟨none, some ⟨true, some "END", none⟩⟩⟩

/-- Question `q1` with a skip rule resolving unconditionally to `q4`. -/
def exQ1Jump : Question := ⟨some "q1", 0, "text", some ⟨none, some ⟨true, some "q4", none⟩⟩⟩

/-- A condition that is false on `exAns` (`q1` is answered, hence not
empty). -/
def condNoMatch : LogicCondition := ⟨some "q1", "is_empty", none⟩

/-- A condition that is true on every answer set (a missing key is
empty). -/
def condMatch : LogicCondition := ⟨some "missing", "is_empty", none⟩

/-- First skip entry: does not match on `exAns`; target `t1`. -/
def ruleOne : SkipLogicRule := ⟨[condNoMatch], some .AND, "t1"⟩

/-- Second skip entry: matches (empty condition list); target `t2`. -/
def ruleTwo : SkipLogicRule := ⟨[], some .AND, "t2"⟩

/-- Third skip entry: matches on `exAns`; target `t3`. -/
def ruleThree : SkipLogicRule := ⟨[condMatch], some .OR, "t3"⟩

/-- An enabled conditional skip logic whose second and third entries both
match on `exAns`. -/
def threeRuleSkip : SkipLogic := ⟨true, none, some [ruleOne, ruleTwo, ruleThree]⟩

end Examples

/-! Helper lemmas about the skip-closure loop and the freeform walk. -/

namespace Widgets

theorem skipTargetOf_isSome (q : Question) (rs : Answers) (t : String)
    (h : skipTargetOf q rs = some t) :
    (q.logic_rules.bind (fun lr => lr.skip_to)).isSome = true := by
  unfold skipTargetOf at h
  cases hq : q.logic_rules.bind (fun lr => lr.skip_to) with
  | none => rw [hq] at h; exact absurd h (by simp)
  | some st => simp [hq]

theorem skipLoopFuel_append (sorted : List Question) (rs : Answers) :
    ∀ (fuel i : ℕ) (acc : List String),
      skipLoopFuel sorted rs fuel i acc = acc ++ skipLoopFuel sorted rs fuel i [] := by
  intro fuel
  induction fuel with
  | zero => intro i acc; simp [skipLoopFuel]
  | succ n ih =>
    intro i acc
    simp only [skipLoopFuel]
    split
    · split
      · split
        · split
          · simp
          · split
            · rw [ih (i+1) acc]
            · split
              · split
                · rw [ih (i+1) (acc ++ _), ih (i+1) ([] ++ _)]
                  simp
                · rw [ih (i+1) acc]
              · rw [ih (i+1) acc]
        · rw [ih (i+1) acc]
      · rw [ih (i+1) acc]
    · simp

theorem skipLoopFuel_end_step (sorted : List Question) (rs : Answers)
    (fuel i : ℕ) (acc : List String) (h : i < sorted.length)
    (htrig : hasResponse (sorted.get ⟨i, h⟩) rs = true)
    (hend : skipTargetOf (sorted.get ⟨i, h⟩) rs = some "END") :
    skipLoopFuel sorted rs (fuel + 1) i acc = acc ++ truthyIds (sorted.drop (i + 1)) := by
  have hsome := skipTargetOf_isSome _ rs _ hend
  simp only [skipLoopFuel]
  rw [dif_pos h]
  simp only [htrig, hsome, Bool.and_self, if_true, hend]

theorem skipLoopFuel_target_step (sorted : List Question) (rs : Answers)
    (fuel i : ℕ) (acc : List String) (t : String) (h : i < sorted.length)
    (htrig : hasResponse (sorted.get ⟨i, h⟩) rs = true)
    (ht : skipTargetOf (sorted.get ⟨i, h⟩) rs = some t)
    (hne : t ≠ "END") (hnil : t ≠ "") :
    skipLoopFuel sorted rs (fuel + 1) i acc =
      skipLoopFuel sorted rs fuel (i + 1) (acc ++ targetAdds sorted i t) := by
  have hsome := skipTargetOf_isSome _ rs _ ht
  simp only [skipLoopFuel]
  rw [dif_pos h]
  simp only [htrig, hsome, Bool.and_self, if_true, ht, if_neg hne, if_neg hnil, targetAdds]
  cases hidx : List.findIdx? (fun x => x.id == some t) sorted with
  | none => simp
  | some ti =>
    by_cases hlt : i < ti
    · simp [hlt]
    · simp [hlt]

theorem foldl_freeformStep_eq (qs : List Question) :
    ∀ (pages : List (List Question)) (cur : List Question),
      (let st := qs.foldl freeformStep (pages, cur)
       if st.2.isEmpty then st.1 else st.1 ++ [st.2]) = pages ++ pbChunks cur qs := by
  induction qs with
  | nil =>
    intro pages cur
    simp only [List.foldl_nil, pbChunks]
    split <;> simp_all
  | cons q rest ih =>
    intro pages cur
    simp only [List.foldl_cons, pbChunks, freeformStep]
    by_cases hq : q.question_type = "page_break"
    · rw [if_pos hq, if_pos hq]
      by_cases hc : cur.isEmpty
      · simp only [hc, if_true]
        rw [ih pages cur]
        have : cur = [] := by simpa using hc
        subst this
        rfl
      · simp only [hc, if_false, Bool.false_eq_true]
        rw [ih (pages ++ [cur]) []]
        simp
    · rw [if_neg hq, if_neg hq]
      exact ih pages (cur ++ [q])

theorem freeformPagesList_eq_pbChunks (visible : List Question) :
    freeformPagesList visible = pbChunks [] visible := by
  have := foldl_freeformStep_eq visible [] []
  simpa [freeformPagesList] using this

theorem pbChunks_flatten (qs : List Question) :
    ∀ cur, (pbChunks cur qs).flatten
      = cur ++ qs.filter (fun q => q.question_type != "page_break") := by
  induction qs with
  | nil =>
    intro cur
    simp only [pbChunks]
    split <;> simp_all
  | cons q rest ih =>
    intro cur
    simp only [pbChunks]
    by_cases hq : q.question_type = "page_break"
    · rw [if_pos hq]
      by_cases hc : cur.isEmpty
      · rw [if_pos hc, ih []]
        have : cur = [] := by simpa using hc
        subst this
        simp [hq]
      · rw [if_neg hc]
        simp only [List.flatten_cons, ih []]
        simp [hq]
    · rw [if_neg hq, ih (cur ++ [q])]
      simp [hq]

theorem pbChunks_mem_ne_nil (qs : List Question) :
    ∀ cur p, p ∈ pbChunks cur qs → p ≠ [] := by
  induction qs with
  | nil =>
    intro cur p hp
    simp only [pbChunks] at hp
    split at hp
    · simp at hp
    · rename_i hc
      simp only [List.mem_singleton] at hp
      subst hp
      simpa using hc
  | cons q rest ih =>
    intro cur p hp
    simp only [pbChunks] at hp
    split at hp
    · split at hp
      · exact ih [] p hp
      · rename_i hc
        rcases List.mem_cons.mp hp with hcur | hrest
        · subst hcur; simpa using hc
        · exact ih [] p hrest
    · exact ih (cur ++ [q]) p hp

theorem pbChunks_mem_no_break (qs : List Question) :
    ∀ cur, (∀ x ∈ cur, x.question_type ≠ "page_break") →
      ∀ p ∈ pbChunks cur qs, ∀ x ∈ p, x.question_type ≠ "page_break" := by
  induction qs with
  | nil =>
    intro cur hcur p hp
    simp only [pbChunks] at hp
    split at hp
    · simp at hp
    · simp only [List.mem_singleton] at hp
      subst hp
      exact hcur
  | cons q rest ih =>
    intro cur hcur p hp
    simp only [pbChunks] at hp
    split at hp
    · split at hp
      · exact ih [] (by simp) p hp
      · rcases List.mem_cons.mp hp with hcur2 | hrest
        · subst hcur2; exact hcur
        · exact ih [] (by simp) p hrest
    · rename_i hq
      refine ih (cur ++ [q]) ?_ p hp
      intro x hx
      rcases List.mem_append.mp hx with hx | hx
      · exact hcur x hx
      · simp only [List.mem_singleton] at hx
        subst hx
        exact hq

theorem freeformPagesList_flatten (visible : List Question) :
    (freeformPagesList visible).flatten
      = visible.filter (fun q => q.question_type != "page_break") := by
  rw [freeformPagesList_eq_pbChunks]
  simpa using pbChunks_flatten visible []

theorem freeformPagesList_nil_filter (visible : List Question)
    (h : freeformPagesList visible = []) :
    visible.filter (fun q => q.question_type != "page_break") = [] := by
  have := freeformPagesList_flatten visible
  rw [h] at this
  simpa using this.symm

end Widgets

namespace ConditionalLogicUtil

theorem skipRulesLoop_eq_find (answers : Answers) (rules : List SkipLogicRule) :
    skipRulesLoop answers rules
      = (rules.find? (fun r => skipRuleMatches r answers)).map
          (fun r => r.skipToQuestionId) := by
  induction rules with
  | nil => rfl
  | cons r rest ih =>
    simp only [skipRulesLoop]
    by_cases h : skipRuleMatches r answers
    · simp [List.find?_cons_of_pos, h]
    · simp only [Bool.not_eq_true] at h
      simp [List.find?_cons_of_neg, h, ih]

theorem skipRulesLoop_first_match (answers : Answers)
    (pre : List SkipLogicRule) (r : SkipLogicRule) (post : List SkipLogicRule)
    (hpre : ∀ x ∈ pre, skipRuleMatches x answers = false)
    (hr : skipRuleMatches r answers = true) :
    skipRulesLoop answers (pre ++ r :: post) = some r.skipToQuestionId := by
  induction pre with
  | nil => simp [skipRulesLoop, hr]
  | cons p rest ih =>
    have hp := hpre p (by simp)
    simp only [List.cons_append, skipRulesLoop, hp, Bool.false_eq_true, if_false]
    exact ih (fun x hx => hpre x (by simp [hx]))

end ConditionalLogicUtil

/-! The claim theorems and their witnesses. -/

open Widgets Examples

/-- C1: when the triggering question at sorted position `i` resolves to the
skip target `'END'`, the id of every question strictly after position `i`
in the display-order-sorted list (all those with an id) is added to the
skipped set, and the pass stops immediately — the result is exactly the
accumulated set plus those ids, with no later question processed. -/
theorem end_target_skips_all_later_questions_and_stops
    (sorted : List Question) (rs : Answers) (fuel i : ℕ) (acc : List String)
    (h : i < sorted.length)
    (htrig : hasResponse (sorted.get ⟨i, h⟩) rs = true)
    (hend : skipTargetOf (sorted.get ⟨i, h⟩) rs = some "END") :
    skipLoopFuel sorted rs (fuel + 1) i acc = acc ++ truthyIds (sorted.drop (i + 1)) :=
  skipLoopFuel_end_step sorted rs fuel i acc h htrig hend

/-- C1 witness: a three-question list whose first question is answered and
jumps to `'END'` marks exactly `q2` and `q3` as skipped. -/
theorem end_target_witness :
    skipLoopFuel [exQ1End, exQ2, exQ3] exAns 3 0 [] = ["q2", "q3"] :=
  (end_target_skips_all_later_questions_and_stops
    [exQ1End, exQ2, exQ3] exAns 2 0 [] (by decide) (by decide) (by decide)).trans
    (by decide)

/-- C2: when the triggering question at sorted position `i` has a specific
skip target id `t`: if `t` is found at a strictly later sorted position
`targetIndex`, exactly the questions strictly between `i` and `targetIndex`
(exclusive both ends, restricted to those with an id) are added to the
skipped set and the pass continues at `i + 1`; if `t` is found at or
before `i`, or not found at all, nothing is added (a no-op, never an
error) and the pass continues. -/
theorem forward_target_skips_between_backward_or_missing_noop
    (sorted : List Question) (rs : Answers) (fuel i : ℕ) (acc : List String)
    (t : String) (h : i < sorted.length)
    (htrig : hasResponse (sorted.get ⟨i, h⟩) rs = true)
    (ht : skipTargetOf (sorted.get ⟨i, h⟩) rs = some t)
    (hne : t ≠ "END") (hnil : t ≠ "") :
    (∀ targetIndex, List.findIdx? (fun x => x.id == some t) sorted = some targetIndex →
      i < targetIndex →
      skipLoopFuel sorted rs (fuel + 1) i acc
        = skipLoopFuel sorted rs fuel (i + 1)
            (acc ++ truthyIds ((sorted.drop (i + 1)).take (targetIndex - (i + 1))))) ∧
    (∀ targetIndex, List.findIdx? (fun x => x.id == some t) sorted = some targetIndex →
      targetIndex ≤ i →
      skipLoopFuel sorted rs (fuel + 1) i acc = skipLoopFuel sorted rs fuel (i + 1) acc) ∧
    (List.findIdx? (fun x => x.id == some t) sorted = none →
      skipLoopFuel sorted rs (fuel + 1) i acc = skipLoopFuel sorted rs fuel (i + 1) acc) := by
  have hstep := skipLoopFuel_target_step sorted rs fuel i acc t h htrig ht hne hnil
  refine ⟨?_, ?_, ?_⟩
  · intro ti hidx hlt
    rw [hstep]
    simp [targetAdds, hidx, hlt]
  · intro ti hidx hge
    rw [hstep]
    simp [targetAdds, hidx, Nat.not_lt.mpr hge]
  · intro hidx
    rw [hstep]
    simp [targetAdds, hidx]

/-- C2 witness: a four-question list whose first question is answered and
jumps to `q4` adds exactly `q2` and `q3` at that step. -/
theorem forward_target_witness :
    skipLoopFuel [exQ1Jump, exQ2, exQ3, exQ4] exAns 4 0 []
      = skipLoopFuel [exQ1Jump, exQ2, exQ3, exQ4] exAns 3 1 ["q2", "q3"] := by
  have h := (forward_target_skips_between_backward_or_missing_noop
    [exQ1Jump, exQ2, exQ3, exQ4] exAns 3 0 [] "q4"
    (by decide) (by decide) (by decide) (by decide) (by decide)).1 3 (by decide) (by decide)
  simpa using h

/-- C5: a question is a trigger of the skip-closure pass exactly when its
id is present (a non-empty id string) and the answer recorded under that
id is neither `undefined`, nor `null`, nor the empty string; and the pass
never consults the accumulated skipped set — its behavior from any
position is independent of what was already marked, so a question whose id
was added earlier in the pass still acts as a trigger whenever it
satisfies the answer predicate. -/
theorem trigger_predicate_and_no_refiltering :
    (∀ (q : Question) (rs : Answers), hasResponse q rs = true ↔ answeredTrigger q rs) ∧
    (∀ (sorted : List Question) (rs : Answers) (fuel i : ℕ) (acc : List String),
      skipLoopFuel sorted rs fuel i acc = acc ++ skipLoopFuel sorted rs fuel i []) := by
  constructor
  · intro q rs
    cases hid : q.id with
    | none => simp [hasResponse, hid, answeredTrigger]
    | some qid =>
      simp only [hasResponse, hid, answeredTrigger, Bool.and_eq_true, bne_iff_ne,
        Bool.not_eq_true', Option.some.injEq]
      constructor
      · rintro ⟨⟨⟨hq, hu⟩, hn⟩, hs⟩
        refine ⟨qid, rfl, hq, ?_, ?_, ?_⟩
        · cases hl : lookupAnswer rs qid <;> simp_all [isUndef]
        · cases hl : lookupAnswer rs qid with
          | none => simp
          | some v => cases v <;> simp_all [isNullV]
        · cases hl : lookupAnswer rs qid with
          | none => simp
          | some v => cases v <;> simp_all [isEmptyStr]
      · rintro ⟨qid2, hentry, hq, hu, hn, hs⟩
        cases hentry
        refine ⟨⟨⟨hq, ?_⟩, ?_⟩, ?_⟩
        · cases hl : lookupAnswer rs qid <;> simp_all [isUndef]
        · cases hl : lookupAnswer rs qid with
          | none => simp [isNullV]
          | some v => cases v <;> simp_all [isNullV]
        · cases hl : lookupAnswer rs qid with
          | none => simp [isEmptyStr]
          | some v => cases v <;> simp_all [isEmptyStr]
  · exact fun sorted rs fuel i acc => skipLoopFuel_append sorted rs fuel i acc

open ConditionalLogicUtil in
/-- C3: `evaluateSkipLogic` returns `null` when the skip logic is absent,
not enabled, or has a nullish or empty `rules` array; otherwise it equals
the `skipToQuestionId` of the first entry (in array order) whose condition
set evaluates true, and `null` when no entry matches — in particular, for
any decomposition `pre ++ r :: post` of the rules where nothing in `pre`
matches and `r` matches, the result is `r`'s target, regardless of any
later matching entries in `post` (first-match-wins). -/
theorem skip_logic_null_cases_and_first_match :
    (∀ answers : Answers, evaluateSkipLogic none answers = none) ∧
    (∀ (sl : SkipLogic) (answers : Answers), sl.enabled = false →
      evaluateSkipLogic (some sl) answers = none) ∧
    (∀ (sl : SkipLogic) (answers : Answers), sl.rules = none →
      evaluateSkipLogic (some sl) answers = none) ∧
    (∀ (sl : SkipLogic) (answers : Answers), sl.rules = some [] →
      evaluateSkipLogic (some sl) answers = none) ∧
    (∀ (sl : SkipLogic) (answers : Answers) (rules : List SkipLogicRule),
      sl.enabled = true → sl.rules = some rules →
      evaluateSkipLogic (some sl) answers
        = (rules.find? (fun r => skipRuleMatches r answers)).map
            (fun r => r.skipToQuestionId)) ∧
    (∀ (sl : SkipLogic) (answers : Answers) (pre : List SkipLogicRule)
        (r : SkipLogicRule) (post : List SkipLogicRule),
      sl.enabled = true → sl.rules = some (pre ++ r :: post) →
      (∀ x ∈ pre, skipRuleMatches x answers = false) →
      skipRuleMatches r answers = true →
      evaluateSkipLogic (some sl) answers = some r.skipToQuestionId) := by
  refine ⟨fun answers => rfl, ?_, ?_, ?_, ?_, ?_⟩
  · intro sl answers hen
    simp [evaluateSkipLogic, hen]
  · intro sl answers hr
    simp only [evaluateSkipLogic, hr]
    split <;> simp
  · intro sl answers hr
    simp only [evaluateSkipLogic, hr]
    split <;> simp
  · intro sl answers rules hen hr
    simp only [evaluateSkipLogic, hen, hr, Bool.not_true, Bool.false_eq_true, if_false]
    cases rules with
    | nil => simp
    | cons a rest => simp [skipRulesLoop_eq_find]
  · intro sl answers pre r post hen hr hpre hmatch
    simp only [evaluateSkipLogic, hen, hr, Bool.not_true, Bool.false_eq_true, if_false]
    cases hl : pre ++ r :: post with
    | nil => exact absurd hl (by simp)
    | cons a rest =>
      have hloop := skipRulesLoop_first_match answers pre r post hpre hmatch
      rw [hl] at hloop
      simpa using hloop

/-- C3 witness: with three rules of which the second and third both match,
the second rule's target `t2` is returned, not the third's. -/
theorem skip_logic_first_match_witness :
    ConditionalLogicUtil.evaluateSkipLogic (some threeRuleSkip) exAns = some "t2" :=
  skip_logic_null_cases_and_first_match.2.2.2.2.2 threeRuleSkip exAns
    [ruleOne] ruleTwo [ruleThree] rfl rfl (by decide) (by decide)

open ConditionalLogicUtil in
/-- C7: `evaluateConditions` returns `true` on a nullish or empty condition
list for both combinators; on a non-empty list, `'AND'` is true exactly
when every condition evaluates true and `'OR'` exactly when at least one
does. -/
theorem empty_conditions_fail_open :
    (∀ (operator : LogicCombinator) (answers : Answers),
      evaluateConditions none operator answers = true) ∧
    (∀ (operator : LogicCombinator) (answers : Answers),
      evaluateConditions (some []) operator answers = true) ∧
    (∀ (answers : Answers) (cs : List LogicCondition), cs ≠ [] →
      (evaluateConditions (some cs) .AND answers = true ↔
        ∀ c ∈ cs, evaluateCondition c answers = true) ∧
      (evaluateConditions (some cs) .OR answers = true ↔
        ∃ c ∈ cs, evaluateCondition c answers = true)) := by
  refine ⟨fun operator answers => rfl, fun operator answers => rfl, ?_⟩
  intro answers cs hcs
  cases cs with
  | nil => exact absurd rfl hcs
  | cons c rest =>
    constructor
    · simp [evaluateConditions, List.all_eq_true]
    · simp [evaluateConditions, List.any_eq_true]

/-- C7 witness: a singleton matching condition list under `'AND'`, and an
empty list under `'OR'`, both evaluate to `true`. -/
theorem empty_conditions_witness :
    ConditionalLogicUtil.evaluateConditions (some [condMatch]) .AND [] = true ∧
    ConditionalLogicUtil.evaluateConditions (some []) .OR [] = true :=
  ⟨((empty_conditions_fail_open.2.2 [] [condMatch] (List.cons_ne_nil _ _)).1).mpr
      (by decide),
    empty_conditions_fail_open.2.1 .OR []⟩

open ConditionalLogicUtil in
/-- C8: `isEmpty` is true exactly when the answer is `undefined` (a missing
key), `null`, a string empty after trimming, an empty array, or an object
with zero own keys; it is false on every number (including `0`) and on
every string not blank after trimming; and the `is_not_empty` operator is
its exact negation (for any valid question id). -/
theorem is_empty_characterization :
    (∀ a : Option Value, isEmpty a = true ↔
      (a = none ∨ a = some .vNull ∨ (∃ s, a = some (.vStr s) ∧ jsTrim s = "")
        ∨ a = some (.vArr []) ∨ a = some (.vObj []))) ∧
    (∀ n : ℚ, isEmpty (some (.vNum n)) = false) ∧
    (∀ s : String, jsTrim s ≠ "" → isEmpty (some (.vStr s)) = false) ∧
    (∀ (qid : String) (answers : Answers) (v : Option Value), qid ≠ "" →
      evaluateCondition ⟨some qid, "is_not_empty", v⟩ answers
        = !evaluateCondition ⟨some qid, "is_empty", v⟩ answers) := by
  refine ⟨?_, ?_, ?_, ?_⟩
  · intro a
    cases a with
    | none => simp [isEmpty]
    | some v =>
      cases v with
      | vNull => simp [isEmpty]
      | vBool b => simp [isEmpty]
      | vNum n => simp [isEmpty]
      | vStr s =>
        simp only [isEmpty, decide_eq_true_eq, Option.some.injEq]
        constructor
        · intro hd
          refine Or.inr (Or.inr (Or.inl ⟨s, rfl, ?_⟩))
          exact String.ext hd
        · rintro (h | h | ⟨s2, hs2, ht⟩ | h | h) <;> first
            | exact absurd h (by simp)
            | (cases hs2; rw [ht])
      | vArr xs =>
        cases xs <;> simp [isEmpty]
      | vObj keys =>
        cases keys <;> simp [isEmpty]
  · intro n; rfl
  · intro s hs
    simp only [isEmpty, decide_eq_false_iff_not]
    intro hd
    exact hs (String.ext hd)
  · intro qid answers v hq
    simp [evaluateCondition, hq]

/-- C8 witness: a whitespace-only string is empty, and `is_not_empty`
negates `is_empty` on a concrete condition. -/
theorem is_empty_witness :
    ConditionalLogicUtil.isEmpty (some (.vStr "   ")) = true ∧
    ConditionalLogicUtil.evaluateCondition ⟨some "q", "is_not_empty", none⟩ []
      = !ConditionalLogicUtil.evaluateCondition ⟨some "q", "is_empty", none⟩ [] :=
  ⟨(is_empty_characterization.1 (some (.vStr "   "))).mpr
      (Or.inr (Or.inr (Or.inl ⟨"   ", rfl, by decide⟩))),
    is_empty_characterization.2.2.2 "q" [] none (by decide)⟩

/-- C9: in the skip-closure computation a skip rule's truthy
`unconditionalTarget` determines the skip target without the rule's
`enabled` flag ever being consulted (the rule is universally quantified
over `enabled`, including `false`), and a disabled rule with an
unconditional target still adds the questions before the target to the
skipped set — whereas the conditional path `evaluateSkipLogic` returns
`null` for any disabled rule. -/
theorem unconditional_target_ignores_enabled :
    (∀ (q : Question) (vis : Option VisibilityLogic) (st : SkipLogic)
        (rs : Answers) (t : String),
      q.logic_rules = some ⟨vis, some st⟩ →
      st.unconditionalTarget = some t → t ≠ "" →
      skipTargetOf q rs = some t) ∧
    (∀ (st : SkipLogic) (answers : Answers), st.enabled = false →
      ConditionalLogicUtil.evaluateSkipLogic (some st) answers = none) ∧
    (∀ (sorted : List Question) (rs : Answers) (fuel i : ℕ) (acc : List String)
        (st : SkipLogic) (t : String) (targetIndex : ℕ) (h : i < sorted.length),
      hasResponse (sorted.get ⟨i, h⟩) rs = true →
      ((sorted.get ⟨i, h⟩).logic_rules.bind (fun lr => lr.skip_to)) = some st →
      st.unconditionalTarget = some t → t ≠ "END" → t ≠ "" →
      List.findIdx? (fun x => x.id == some t) sorted = some targetIndex →
      i < targetIndex →
      skipLoopFuel sorted rs (fuel + 1) i acc
        = skipLoopFuel sorted rs fuel (i + 1)
            (acc ++ truthyIds ((sorted.drop (i + 1)).take (targetIndex - (i + 1))))) := by
  refine ⟨?_, ?_, ?_⟩
  · intro q vis st rs t hq hu hnil
    simp [skipTargetOf, hq, hu, hnil]
  · intro st answers hen
    simp [ConditionalLogicUtil.evaluateSkipLogic, hen]
  · intro sorted rs fuel i acc st t targetIndex h htrig hst hu hne hnil hidx hlt
    have ht : skipTargetOf (sorted.get ⟨i, h⟩) rs = some t := by
      unfold skipTargetOf
      rw [hst]
      simp [hu, hnil]
    have hstep := skipLoopFuel_target_step sorted rs fuel i acc t h htrig ht hne hnil
    rw [hstep]
    simp [targetAdds, hidx, hlt]

/-- C9 witness: a disabled skip rule with unconditional target `q3` on an
answered question still resolves to `q3` and marks `q2` as skipped, while
`evaluateSkipLogic` on the same rule returns `null`. -/
theorem unconditional_target_witness :
    skipTargetOf exQ1Uncond exAns = some "q3" ∧
    ConditionalLogicUtil.evaluateSkipLogic (some disabledUncondSkip) exAns = none ∧
    skippedQuestionIds [exQ1Uncond, exQ2, exQ3] exAns = ["q2"] :=
  ⟨unconditional_target_ignores_enabled.1 exQ1Uncond none disabledUncondSkip exAns "q3"
      rfl rfl (by decide),
    unconditional_target_ignores_enabled.2.1 disabledUncondSkip exAns rfl,
    by decide⟩

/-- C6: under any non-conversational (freeform) display style, the pages
produced by the freeform walk are all non-empty, no page contains a
`page_break` question, and the pages concatenate (in order) to exactly the
visible non-skipped questions with `page_break`s removed; the example list
`[Q1, Q2, pageBreak, Q3]` with display orders 0–3 and no rules paginates
to `[[Q1, Q2], [Q3]]` in both widgets. -/
theorem freeform_page_partitioning :
    (∀ visible : List Question, ∀ p ∈ freeformPagesList visible, p ≠ []) ∧
    (∀ visible : List Question, ∀ p ∈ freeformPagesList visible,
      ∀ q ∈ p, q.question_type ≠ "page_break") ∧
    (∀ (questions : List Question) (responses : Answers) (ds : Option String),
      effectiveDisplayStyle ds ≠ "conversational" →
      (formPages questions responses ds).flatten
        = (visibleAfterSkip questions responses).filter
            (fun q => q.question_type != "page_break")) ∧
    (∀ (questions : List Question) (responses : Answers) (ds : Option String),
      effectiveDisplayStyle ds ≠ "conversational" →
      (surveyPages questions responses ds).flatten
        = (visibleAfterSkip questions responses).filter
            (fun q => q.question_type != "page_break")) ∧
    formPages [exQ1, exQ2, exPB, exQ3] [] none = [[exQ1, exQ2], [exQ3]] ∧
    surveyPages [exQ1, exQ2, exPB, exQ3] [] none = [[exQ1, exQ2], [exQ3]] := by
  refine ⟨?_, ?_, ?_, ?_, rfl, rfl⟩
  · intro visible p hp
    rw [freeformPagesList_eq_pbChunks] at hp
    exact pbChunks_mem_ne_nil visible [] p hp
  · intro visible p hp q hq
    rw [freeformPagesList_eq_pbChunks] at hp
    exact pbChunks_mem_no_break visible [] (by simp) p hp q hq
  · intro questions responses ds hds
    simp only [formPages, if_neg hds]
    by_cases hpl : (freeformPagesList (visibleAfterSkip questions responses)).isEmpty
    · rw [if_pos hpl]
      have hnil : freeformPagesList (visibleAfterSkip questions responses) = [] := by
        simpa using hpl
      rw [freeformPagesList_nil_filter _ hnil]
      rfl
    · rw [if_neg hpl]
      exact freeformPagesList_flatten _
  · intro questions responses ds hds
    simp only [surveyPages, if_neg hds]
    by_cases hpl : (freeformPagesList (visibleAfterSkip questions responses)).isEmpty
    · rw [if_pos hpl]
      simp
    · rw [if_neg hpl]
      exact freeformPagesList_flatten _

/-- C6 witness: the flatten property applied at a concrete list containing
two consecutive page breaks. -/
theorem freeform_page_partitioning_witness :
    (formPages [exQ1, exPB, exPB, exQ3] [] none).flatten
      = (visibleAfterSkip [exQ1, exPB, exPB, exQ3] []).filter
          (fun q => q.question_type != "page_break") :=
  freeform_page_partitioning.2.2.1 [exQ1, exPB, exPB, exQ3] [] none (by decide)

/-- C4: when the freeform walk over the visible non-skipped questions
produces zero pages, the form widget returns `[[]]` (a single empty page)
and the survey widget returns a single page holding the visible questions
with `page_break`s removed; in every other case (conversational style or a
non-empty walk) the two widgets' pagination computations agree. -/
theorem zero_pages_fallbacks_and_agreement :
    (∀ (questions : List Question) (responses : Answers) (ds : Option String),
      effectiveDisplayStyle ds ≠ "conversational" →
      freeformPagesList (visibleAfterSkip questions responses) = [] →
      formPages questions responses ds = [[]] ∧
      surveyPages questions responses ds
        = [(visibleAfterSkip questions responses).filter
            (fun q => q.question_type != "page_break")]) ∧
    (∀ (questions : List Question) (responses : Answers) (ds : Option String),
      effectiveDisplayStyle ds = "conversational" ∨
        freeformPagesList (visibleAfterSkip questions responses) ≠ [] →
      formPages questions responses ds = surveyPages questions responses ds) := by
  constructor
  · intro questions responses ds hds hnil
    have hpl : (freeformPagesList (visibleAfterSkip questions responses)).isEmpty := by
      simp [hnil]
    constructor
    · simp only [formPages, if_neg hds, if_pos hpl]
    · simp only [surveyPages, if_neg hds, if_pos hpl]
  · intro questions responses ds hcase
    rcases hcase with hconv | hne
    · simp only [formPages, surveyPages, if_pos hconv]
    · have hpl : ¬(freeformPagesList (visibleAfterSkip questions responses)).isEmpty := by
        simpa using hne
      by_cases hconv : effectiveDisplayStyle ds = "conversational"
      · simp only [formPages, surveyPages, if_pos hconv]
      · simp only [formPages, surveyPages, if_neg hconv, if_neg hpl]

/-- C4 witness: a page-break-only list hits both fallbacks (which coincide
extensionally), and a one-question list lands in the agreeing case. -/
theorem zero_pages_fallbacks_witness :
    formPages [exPB] [] none = [[]] ∧ surveyPages [exPB] [] none = [[]] ∧
    formPages [exQ1] [] none = surveyPages [exQ1] [] none := by
  have h := zero_pages_fallbacks_and_agreement.1 [exPB] [] none (by decide) rfl
  refine ⟨h.1, h.2.trans rfl, ?_⟩
  refine zero_pages_fallbacks_and_agreement.2 [exQ1] [] none (Or.inr ?_)
  rw [show freeformPagesList (visibleAfterSkip [exQ1] []) = [[exQ1]] from rfl]
  simp

open ConditionalLogicUtil in
/-- C10: the four numeric comparison operators coerce both sides with
JavaScript `Number` semantics: a `null` answer and an empty-string answer
coerce to `0` and behave exactly like the number `0` against every
comparison value, an `undefined` (missing) answer coerces to `NaN` and
makes each comparison false, and in particular a `null` answer satisfies
`greater_than` with value `-1`. -/
theorem numeric_coercion_null_empty_undefined :
    toNumber (some .vNull) = some 0 ∧
    toNumber (some (.vStr "")) = some 0 ∧
    toNumber none = none ∧
    (∀ v : Option Value,
      greaterThan (some .vNull) v = greaterThan (some (.vNum 0)) v ∧
      lessThan (some .vNull) v = lessThan (some (.vNum 0)) v ∧
      greaterThanOrEqual (some .vNull) v = greaterThanOrEqual (some (.vNum 0)) v ∧
      lessThanOrEqual (some .vNull) v = lessThanOrEqual (some (.vNum 0)) v ∧
      greaterThan (some (.vStr "")) v = greaterThan (some (.vNum 0)) v ∧
      lessThan (some (.vStr "")) v = lessThan (some (.vNum 0)) v ∧
      greaterThanOrEqual (some (.vStr "")) v = greaterThanOrEqual (some (.vNum 0)) v ∧
      lessThanOrEqual (some (.vStr "")) v = lessThanOrEqual (some (.vNum 0)) v ∧
      greaterThan none v = false ∧
      lessThan none v = false ∧
      greaterThanOrEqual none v = false ∧
      lessThanOrEqual none v = false) ∧
    greaterThan (some .vNull) (some (.vNum (-1))) = true := by
  have hnull : toNumber (some .vNull) = some 0 := rfl
  have hstr : toNumber (some (.vStr "")) = some 0 := rfl
  have hs0 : strToNum "" = some 0 := rfl
  refine ⟨hnull, hstr, rfl, ?_, ?_⟩
  · intro v
    refine ⟨?_, ?_, ?_, ?_, ?_, ?_, ?_, ?_, rfl, rfl, rfl, rfl⟩ <;>
      simp [greaterThan, lessThan, greaterThanOrEqual, lessThanOrEqual, hnull, hstr,
        hs0, toNumber, toNumberV]
  · show (match toNumber (some .vNull), toNumber (some (.vNum (-1))) with
      | some a, some b => decide (a > b)
      | _, _ => false) = true
    rw [hnull]
    norm_num [toNumber, toNumberV]

end WidgetReact
